import Mathlib

/-!
Shallow embedding of the Medify single-page application (`src/src/App.js`):
the retrying fetch helper, the localStorage booking store, the search state
controller, and the booking-list operations, together with theorems about
the spec's claims.  Definitions come first, then the theorems.
-/

namespace Medify

/-! ## Retrying fetch helper (`fetchWithRetry`, App.js lines 8-21)

The JS loop `for (let i = 0; i < retries; i++)` performs one network
attempt per iteration.  The environment is modelled by a function
`attempt : Nat → FetchOutcome E V` giving the outcome of the i-th attempt
(`ok v`: response ok with parsed JSON body `v`; `err e`: non-ok response or
transport failure, both raised as an exception in the JS code).
`fetchWithRetry` returns the pair of
* `none` when the loop finishes without returning or throwing (JS: the
  function returns `undefined`), `some (Except.ok v)` for a returned body,
  or `some (Except.error e)` for a thrown error, and
* the number of attempts actually performed.
The retry budget is an `Int`, since JS callers may pass any number; the
backoff delay (lines 16-18) does not affect the returned value and is not
modelled. -/

inductive FetchOutcome (E V : Type) where
  | ok (v : V)
  | err (e : E)
deriving DecidableEq, Repr

def fetchLoop {E V : Type} (attempt : Nat → FetchOutcome E V)
    (retries : Int) (i : Nat) : Option (Except E V) × Nat :=
  if _h : (i : Int) < retries then
    match attempt i with
    | .ok v => (some (Except.ok v), 1)
    | .err e =>
      if (i : Int) = retries - 1 then
        (some (Except.error e), 1)
      else
        let p := fetchLoop attempt retries (i + 1)
        (p.1, p.2 + 1)
  else
    (none, 0)
termination_by (retries - i).toNat
decreasing_by omega

def fetchWithRetry {E V : Type} (attempt : Nat → FetchOutcome E V)
    (retries : Int := 3) : Option (Except E V) × Nat :=
  fetchLoop attempt retries 0

/-- A request that fails on its first two attempts and succeeds from the
third on (errors carry the attempt index, the success body is `7`). -/
def failTwiceAttempt : Nat → FetchOutcome Nat Nat
  | 0 => .err 0
  | 1 => .err 1
  | _ => .ok 7

/-- A request that fails on every attempt, the i-th with error `i`. -/
def alwaysFailAttempt : Nat → FetchOutcome Nat Nat :=
  fun i => .err i

/-! ## Booking records and the booking-list operations
(`handleBook`, `handleCancelBooking`, App.js lines 601-611) -/

/-- A booking record: the five projected hospital fields plus the chosen
date and time (`...hospital, bookingDate, bookingTime`).  All fields are
strings in the app. -/
structure Booking where
  hospitalName : String
  city : String
  state : String
  hospitalType : String
  rating : String
  bookingDate : String
  bookingTime : String
deriving DecidableEq, Repr

/-- JS `const updatedBookings = [...bookings, newBooking]`. -/
def handleBook (bookings : List Booking) (newBooking : Booking) : List Booking :=
  bookings ++ [newBooking]

/-- JS `bookings.filter((_, i) => i !== index)`. -/
def handleCancelBooking (bookings : List Booking) (index : Nat) : List Booking :=
  ((bookings.enum.filter (fun p => p.1 ≠ index)).map (fun p => p.2))

/-! ## The JSON serialization used by the booking store

`JSON.stringify` and `JSON.parse` are browser builtins; they are modelled
here for the value shape this store reads and writes: a JSON array of
booking objects carrying the seven string fields in the insertion order the
app produces, with JS string escaping (`\"`, `\\`, `\b`, `\t`, `\n`, `\f`,
`\r`, and `\u00XX` for the remaining control characters).  The parser
accepts exactly the canonical (stringify-produced) form of that shape and
rejects everything else, as `JSON.parse` does on malformed input. -/

def hexDigitChar (n : Nat) : Char :=
  if n < 10 then Char.ofNat (48 + n) else Char.ofNat (87 + n)

def escChar (c : Char) : List Char :=
  if c = '"' then ['\\', '"']
  else if c = '\\' then ['\\', '\\']
  else if c = Char.ofNat 8 then ['\\', 'b']
  else if c = Char.ofNat 9 then ['\\', 't']
  else if c = Char.ofNat 10 then ['\\', 'n']
  else if c = Char.ofNat 12 then ['\\', 'f']
  else if c = Char.ofNat 13 then ['\\', 'r']
  else if c.toNat < 32 then
    ['\\', 'u', '0', '0', hexDigitChar (c.toNat / 16), hexDigitChar (c.toNat % 16)]
  else [c]

def escapeChars (cs : List Char) : List Char := cs.flatMap escChar

def hexVal (c : Char) : Option Nat :=
  if '0' ≤ c ∧ c ≤ '9' then some (c.toNat - 48)
  else if 'a' ≤ c ∧ c ≤ 'f' then some (c.toNat - 87)
  else if 'A' ≤ c ∧ c ≤ 'F' then some (c.toNat - 55)
  else none

/-- Consume the body of a JSON string up to its closing quote, decoding
escapes; returns the decoded characters and the unconsumed input. -/
def parseStrAux : List Char → Option (List Char × List Char)
  | [] => none
  | c :: rest =>
    if c = '"' then some ([], rest)
    else if c = '\\' then
      match rest with
      | [] => none
      | e :: rest2 =>
        if e = '"' then (parseStrAux rest2).map (fun p => ('"' :: p.1, p.2))
        else if e = '\\' then (parseStrAux rest2).map (fun p => ('\\' :: p.1, p.2))
        else if e = '/' then (parseStrAux rest2).map (fun p => ('/' :: p.1, p.2))
        else if e = 'b' then (parseStrAux rest2).map (fun p => (Char.ofNat 8 :: p.1, p.2))
        else if e = 't' then (parseStrAux rest2).map (fun p => (Char.ofNat 9 :: p.1, p.2))
        else if e = 'n' then (parseStrAux rest2).map (fun p => (Char.ofNat 10 :: p.1, p.2))
        else if e = 'f' then (parseStrAux rest2).map (fun p => (Char.ofNat 12 :: p.1, p.2))
        else if e = 'r' then (parseStrAux rest2).map (fun p => (Char.ofNat 13 :: p.1, p.2))
        else if e = 'u' then
          match rest2 with
          | h1 :: h2 :: h3 :: h4 :: rest3 =>
            match hexVal h1, hexVal h2, hexVal h3, hexVal h4 with
            | some a, some b, some c2, some d =>
              let n := ((a * 16 + b) * 16 + c2) * 16 + d
              if n < 55296 ∨ (57343 < n ∧ n < 1114112) then
                (parseStrAux rest3).map (fun p => (Char.ofNat n :: p.1, p.2))
              else none
            | _, _, _, _ => none
          | _ => none
        else none
    else if c.toNat < 32 then none
    else (parseStrAux rest).map (fun p => (c :: p.1, p.2))

def objOpen : Char := Char.ofNat 123

def objClose : Char := Char.ofNat 125

def expectLit : List Char → List Char → Option (List Char)
  | [], l => some l
  | _ :: _, [] => none
  | p :: ps, x :: xs => if x = p then expectLit ps xs else none

def expectChar (c : Char) (l : List Char) : Option (List Char) :=
  match l with
  | [] => none
  | x :: xs => if x = c then some xs else none

/-- Parse one `"key":"value"` pair whose key is the given string. -/
def parseField (key : String) (l : List Char) : Option (String × List Char) := do
  let l1 ← expectLit ('"' :: escapeChars key.data ++ ['"', ':', '"']) l
  let (cs, l2) ← parseStrAux l1
  some (String.mk cs, l2)

/-- Serialized form of one `"key":"value"` pair, prepended to `rest`. -/
def fieldFrom (key v : String) (rest : List Char) : List Char :=
  '"' :: escapeChars key.data ++ '"' :: ':' :: '"' :: escapeChars v.data ++ '"' :: rest

/-- Serialized comma-separated field list of an object, prepended to `rest`. -/
def fieldsFrom : List (String × String) → List Char → List Char
  | [], rest => rest
  | [kv], rest => fieldFrom kv.1 kv.2 rest
  | kv :: kv2 :: kvs, rest => fieldFrom kv.1 kv.2 (',' :: fieldsFrom (kv2 :: kvs) rest)

/-- Parse a comma-separated field list with the given keys, in order. -/
def parseFields : List String → List Char → Option (List String × List Char)
  | [], l => some ([], l)
  | [k], l => (parseField k l).map (fun p => ([p.1], p.2))
  | k :: k2 :: ks, l => do
      let (v, l1) ← parseField k l
      let l2 ← expectChar ',' l1
      let (vs, l3) ← parseFields (k2 :: ks) l2
      some (v :: vs, l3)

/-- The seven keys of a serialized booking object, in the insertion order
produced by `{...hospital, bookingDate, bookingTime}` in `handleBook`. -/
def bookingKeys : List String :=
  ["Hospital Name", "City", "State", "Hospital Type", "Hospital overall rating",
   "bookingDate", "bookingTime"]

def bookingPairs (b : Booking) : List (String × String) :=
  [("Hospital Name", b.hospitalName), ("City", b.city), ("State", b.state),
   ("Hospital Type", b.hospitalType), ("Hospital overall rating", b.rating),
   ("bookingDate", b.bookingDate), ("bookingTime", b.bookingTime)]

/-- Serialized booking object, prepended to `rest`. -/
def bookingFrom (b : Booking) (rest : List Char) : List Char :=
  objOpen :: fieldsFrom (bookingPairs b) (objClose :: rest)

def parseBooking (l : List Char) : Option (Booking × List Char) := do
  let l ← expectChar objOpen l
  let (vs, l) ← parseFields bookingKeys l
  let l ← expectChar objClose l
  match vs with
  | [v1, v2, v3, v4, v5, v6, v7] => some (⟨v1, v2, v3, v4, v5, v6, v7⟩, l)
  | _ => none

/-- Serialized form of a nonempty array's items followed by the closing
bracket (for the empty array only the closing bracket). -/
def itemsFrom : List Booking → List Char
  | [] => [']']
  | [b] => bookingFrom b [']']
  | b :: b2 :: bs => bookingFrom b (',' :: itemsFrom (b2 :: bs))

/-- Parse comma-separated booking objects followed by `]`.  The fuel is an
upper bound on the number of items, supplied as the input length at the
top level; it only enforces termination. -/
def parseItems : Nat → List Char → Option (List Booking × List Char)
  | 0, _ => none
  | fuel + 1, l =>
    match parseBooking l with
    | none => none
    | some (b, r) =>
      match r with
      | ',' :: r2 => (parseItems fuel r2).map (fun p => (b :: p.1, p.2))
      | ']' :: r2 => some ([b], r2)
      | _ => none

/-- Model of `JSON.stringify` applied to a booking array. -/
def stringifyBookings (bs : List Booking) : String :=
  String.mk ('[' :: itemsFrom bs)

/-- Model of `JSON.parse` specialized to booking arrays (the only shape the
store writes); `none` models a thrown `SyntaxError`. -/
def parseBookings (s : String) : Option (List Booking) :=
  match s.data with
  | c :: rest =>
    if c = '[' then
      if rest = [']'] then some []
      else
        match parseItems (rest.length + 1) rest with
        | some (bs, r) => if r = [] then some bs else none
        | none => none
    else none
  | [] => none

/-! ## Local booking store (`getBookings`/`saveBookings`, App.js lines 23-39) -/

/-- The browser's localStorage: a partial map from keys to strings. -/
def Storage : Type := String → Option String

/-- JS `localStorage.setItem('bookings', JSON.stringify(bookings))`.
Serialization of a booking array never throws, so the catch branch
(App.js 36-38) is unreachable in the model. -/
def saveBookings (bookings : List Booking) (st : Storage) : Storage :=
  fun k => if k = "bookings" then some (stringifyBookings bookings) else st k

/-- JS `getBookings` (App.js 23-31): read the `bookings` slot; a missing
slot or empty string is falsy and yields `[]`; a parse failure is caught,
logged and yields `[]`. -/
def getBookings (st : Storage) : List Booking :=
  match st "bookings" with
  | none => []
  | some s =>
    if s = "" then []
    else
      match parseBookings s with
      | some v => v
      | none => []

/-! ## Search state controller (App.js lines 498-591)

The component state relevant to the claims, plus explicit queues of
in-flight requests.  Each fetch stage is split into its synchronous part
(what runs before the `await`) and a resolve event (the unconsumed
continuation after the `await`, applied when some pending request's
response arrives); this reflects the single-threaded event-driven
execution model: state updates between issue and resolve are visible to
neither. -/

/-- A search result: the five-field projection built in `handleSearch`. -/
structure Hospital where
  hospitalName : String
  city : String
  state : String
  hospitalType : String
  rating : String
deriving DecidableEq, Repr

/-- A raw hospital record from `GET /data`: each consumed field may be
absent (`none`) or present. -/
structure RawHospital where
  hospitalName : Option String
  city : Option String
  state : Option String
  hospitalType : Option String
  rating : Option String
deriving DecidableEq, Repr

/-- JS `hospital['...'] || ''`: an absent (or empty, hence falsy) field
becomes the empty string. -/
def orEmpty : Option String → String
  | none => ""
  | some s => s

/-- The five-field projection of App.js lines 576-581. -/
def projectHospital (h : RawHospital) : Hospital :=
  ⟨orEmpty h.hospitalName, orEmpty h.city, orEmpty h.state,
   orEmpty h.hospitalType, orEmpty h.rating⟩

/-- App.js lines 576-582: project every record, then drop records whose
projected name is falsy (the empty string). -/
def processHospitalData (data : List RawHospital) : List Hospital :=
  (data.map projectHospital).filter (fun h => h.hospitalName ≠ "")

/-- An element of the `GET /states` response array; the code consumes the
`state` field (`data.map(item => item.state)`). -/
structure StateRec where
  state : String
deriving DecidableEq, Repr

/-- JS `Array.prototype.sort()` on an array of strings: sorts by string
order; modelled as insertion sort by `≤` on `String`. -/
def insertSorted (x : String) : List String → List String
  | [] => [x]
  | y :: ys => if x ≤ y then x :: y :: ys else y :: insertSorted x ys

def jsSortStrings (l : List String) : List String :=
  l.foldr insertSorted []

/-- The `isLoading` record (App.js 511-515). -/
structure LoadingFlags where
  states : Bool
  cities : Bool
  hospitals : Bool
deriving DecidableEq, Repr

/-- The component state the claims are about, plus the queues of pending
(in-flight, unresolved) cities and hospitals requests with the selection
they were issued for. -/
structure AppState where
  states : List String
  cities : List String
  selectedState : Option String
  selectedCity : Option String
  searchResults : List Hospital
  bookings : List Booking
  isLoading : LoadingFlags
  pendingCityReqs : List String
  pendingHospitalReqs : List (String × String)
deriving DecidableEq, Repr

def initialState : AppState :=
  { states := [], cities := [], selectedState := none, selectedCity := none,
    searchResults := [], bookings := [], isLoading := ⟨false, false, false⟩,
    pendingCityReqs := [], pendingHospitalReqs := [] }

/-- JS truthiness of the selection values: `null`/`undefined` and the empty
string are falsy. -/
def isFalsyStr : Option String → Bool
  | none => true
  | some s => s = ""

/-- Synchronous part of the `fetchStates` effect (App.js 526-527). -/
def fetchStatesStart (s : AppState) : AppState :=
  { s with isLoading := { s.isLoading with states := true } }

/-- Resume of `fetchStates` when its request settles (App.js 529-535):
on success store the sorted mapped states; either way the `finally` clears
the flag. -/
def fetchStatesResolve (s : AppState) (res : Except Unit (List StateRec)) : AppState :=
  match res with
  | .ok data =>
    { s with states := jsSortStrings (data.map (fun r => r.state)),
             isLoading := { s.isLoading with states := false } }
  | .error _ => { s with isLoading := { s.isLoading with states := false } }

/-- `setSelectedState` followed by the synchronous part of the
`[selectedState]` effect (App.js 540-556): a falsy state clears cities,
selected city and results; a truthy one additionally raises the cities
loading flag and issues a cities request (appended to the pending queue,
which is never cleared — requests are not cancelable). -/
def selectState (s : AppState) (st : Option String) : AppState :=
  match st with
  | none =>
    { s with selectedState := none, cities := [], selectedCity := none,
             searchResults := [] }
  | some str =>
    if str = "" then
      { s with selectedState := some str, cities := [], selectedCity := none,
               searchResults := [] }
    else
      { s with selectedState := some str,
               isLoading := { s.isLoading with cities := true },
               cities := [], selectedCity := none, searchResults := [],
               pendingCityReqs := s.pendingCityReqs ++ [str] }

/-- Resume of `fetchCities` when the pending request at position `k`
settles (App.js 553-561): on success store the sorted cities; either way
the `finally` clears the flag.  No request-generation guard is checked:
the response is applied whatever the current selection is. -/
def citiesResolve (s : AppState) (k : Nat) (res : Except Unit (List String)) : AppState :=
  if k < s.pendingCityReqs.length then
    let s1 := { s with pendingCityReqs := s.pendingCityReqs.eraseIdx k }
    match res with
    | .ok data =>
      { s1 with cities := jsSortStrings data,
                isLoading := { s1.isLoading with cities := false } }
    | .error _ => { s1 with isLoading := { s1.isLoading with cities := false } }
  else s

/-- `setSelectedCity` as wired to the city dropdown (App.js 338): it only
sets the selection; no effect observes `selectedCity`. -/
def selectCity (s : AppState) (c : Option String) : AppState :=
  { s with selectedCity := c }

/-- Synchronous part of `handleSearch` (App.js 567-573): the guard returns
early unless both selections are truthy; otherwise raise the hospitals
flag, clear the results and issue a hospitals request. -/
def handleSearchStart (s : AppState) : AppState :=
  if isFalsyStr s.selectedState || isFalsyStr s.selectedCity then s
  else
    { s with isLoading := { s.isLoading with hospitals := true },
             searchResults := [],
             pendingHospitalReqs := s.pendingHospitalReqs ++
               [(orEmpty s.selectedState, orEmpty s.selectedCity)] }

/-- Resume of `handleSearch` when the pending request at position `k`
settles (App.js 574-590): on success the projected-and-filtered data
replaces the results; on failure the results are cleared; either way the
`finally` clears the flag.  No request-generation guard is checked. -/
def hospitalsResolve (s : AppState) (k : Nat)
    (res : Except Unit (List RawHospital)) : AppState :=
  if k < s.pendingHospitalReqs.length then
    let s1 := { s with pendingHospitalReqs := s.pendingHospitalReqs.eraseIdx k }
    match res with
    | .ok data =>
      { s1 with searchResults := processHospitalData data,
                isLoading := { s1.isLoading with hospitals := false } }
    | .error _ =>
      { s1 with searchResults := [],
                isLoading := { s1.isLoading with hospitals := false } }
  else s

/-- A concrete search result used in closed statements. -/
def hospitalA : Hospital :=
  ⟨"ALPHA MEDICAL CENTER", "LOS ANGELES", "CA", "Acute Care", "4"⟩

/-- A concrete raw record with all five fields present. -/
def rawGood : RawHospital :=
  ⟨some "ALPHA MEDICAL CENTER", some "LOS ANGELES", some "CA",
   some "Acute Care", some "4"⟩

/-- A concrete raw record with no name field. -/
def rawNameless : RawHospital :=
  ⟨none, some "LOS ANGELES", some "CA", none, some "3"⟩

/-- A concrete state with a selection made and one search result shown. -/
def exState : AppState :=
  { states := ["CA"], cities := ["LOS ANGELES", "OAKLAND"],
    selectedState := some "CA", selectedCity := some "LOS ANGELES",
    searchResults := [hospitalA], bookings := [],
    isLoading := ⟨false, false, false⟩,
    pendingCityReqs := [], pendingHospitalReqs := [] }

/-- `exState` with an in-flight hospitals request and no results yet. -/
def exPending : AppState :=
  { exState with searchResults := [],
                 isLoading := ⟨false, false, true⟩,
                 pendingHospitalReqs := [("CA", "LOS ANGELES")] }

/-! ## Theorems: retrying fetch helper (C1, C10) -/

/-- When every attempt fails, the loop starting at index `i < retries` runs
the remaining `retries - i` iterations and throws the error of the last
attempt (index `retries - 1`). -/
theorem fetchLoop_all_err {E V : Type} (attempt : Nat → FetchOutcome E V)
    (errs : Nat → E) (hall : ∀ i, attempt i = .err (errs i)) (retries : Int) :
    ∀ i : Nat, (i : Int) < retries →
      fetchLoop attempt retries i =
        (some (Except.error (errs (retries - 1).toNat)), (retries - i).toNat) := by
  have key : ∀ (n : Nat) (i : Nat), (retries - i).toNat = n → (i : Int) < retries →
      fetchLoop attempt retries i =
        (some (Except.error (errs (retries - 1).toNat)), (retries - i).toNat) := by
    intro n
    induction n using Nat.strong_induction_on with
    | _ n ih =>
      intro i hn hi
      rw [fetchLoop]
      rw [dif_pos hi, hall i]
      dsimp only
      by_cases hlast : (i : Int) = retries - 1
      · rw [if_pos hlast]
        have h1 : (retries - 1).toNat = i := by omega
        have h2 : (retries - (i : Int)).toNat = 1 := by omega
        rw [h1, h2]
      · rw [if_neg hlast]
        have hi' : ((i + 1 : Nat) : Int) < retries := by push_cast; omega
        have hlt : (retries - ((i + 1 : Nat) : Int)).toNat < n := by push_cast at *; omega
        rw [ih _ hlt (i + 1) rfl hi']
        have : (retries - (i : Int)).toNat = (retries - ((i + 1 : Nat) : Int)).toNat + 1 := by
          push_cast; omega
        rw [this]
  intro i hi
  exact key ((retries - i).toNat) i rfl hi

/-- A successful attempt inside the budget returns its parsed body after
exactly one further attempt. -/
theorem fetchLoop_ok_step {E V : Type} (attempt : Nat → FetchOutcome E V)
    (retries : Int) (i : Nat) (v : V)
    (hi : (i : Int) < retries) (hA : attempt i = .ok v) :
    fetchLoop attempt retries i = (some (Except.ok v), 1) := by
  rw [fetchLoop, dif_pos hi, hA]

/-- A failed attempt that is not the last one performs one attempt and
continues with the next loop index. -/
theorem fetchLoop_err_step {E V : Type} (attempt : Nat → FetchOutcome E V)
    (retries : Int) (i : Nat) (e : E)
    (hi : (i : Int) < retries) (hlast : (i : Int) ≠ retries - 1)
    (hA : attempt i = .err e) :
    fetchLoop attempt retries i =
      ((fetchLoop attempt retries (i + 1)).1,
       (fetchLoop attempt retries (i + 1)).2 + 1) := by
  rw [fetchLoop, dif_pos hi, hA]
  dsimp only
  rw [if_neg hlast]

/-- C1 (amended): for a retry budget of at least 3, a request that fails on
its first two attempts and succeeds on the third leads to exactly 3 attempts
and the third attempt's parsed JSON body being returned; for a retry budget
of at least 1, a request that fails on every attempt leads to exactly
`retries` attempts and the error of the final attempt being thrown. -/
theorem fetchWithRetry_retry_contract {E V : Type} :
    (∀ (attempt : Nat → FetchOutcome E V) (e0 e1 : E) (v : V) (retries : Int),
        3 ≤ retries →
        attempt 0 = .err e0 → attempt 1 = .err e1 → attempt 2 = .ok v →
        fetchWithRetry attempt retries = (some (Except.ok v), 3)) ∧
    (∀ (attempt : Nat → FetchOutcome E V) (errs : Nat → E) (retries : Int),
        (∀ i, attempt i = .err (errs i)) → 1 ≤ retries →
        fetchWithRetry attempt retries =
          (some (Except.error (errs (retries - 1).toNat)), retries.toNat)) := by
  constructor
  · intro attempt e0 e1 v retries h3 h0 h1 h2
    have L2 : fetchLoop attempt retries 2 = (some (Except.ok v), 1) :=
      fetchLoop_ok_step attempt retries 2 v (by omega) h2
    have L1 : fetchLoop attempt retries 1 = (some (Except.ok v), 2) := by
      rw [fetchLoop_err_step attempt retries 1 e1 (by omega) (by omega) h1]
      norm_num [L2]
    have L0 : fetchLoop attempt retries 0 = (some (Except.ok v), 3) := by
      rw [fetchLoop_err_step attempt retries 0 e0 (by omega) (by omega) h0]
      norm_num [L1]
    exact L0
  · intro attempt errs retries hall h1
    have h := fetchLoop_all_err attempt errs hall retries 0 (by omega)
    rw [fetchWithRetry, h]
    norm_num

/-- C1 counterexample: with a retry budget of 1, a request that fails twice
then succeeds leads to a single attempt and the first error being thrown —
not 3 attempts returning the third body — and with a budget of 0 an
always-failing request produces zero attempts and `undefined` (no error is
thrown), so the claim as stated fails for budgets below 3 (resp. below 1). -/
theorem fetchWithRetry_small_budget_cex :
    fetchWithRetry failTwiceAttempt 1 = (some (Except.error 0), 1) ∧
    fetchWithRetry failTwiceAttempt 1 ≠ (some (Except.ok 7), 3) ∧
    fetchWithRetry alwaysFailAttempt 0 = (none, 0) := by
  refine ⟨?_, ?_, ?_⟩ <;>
    simp [fetchWithRetry, fetchLoop, failTwiceAttempt, alwaysFailAttempt]

/-- Witness for C1: both parts of the amended contract evaluated at
concrete attempt sequences and budgets. -/
theorem fetchWithRetry_retry_contract_witness :
    fetchWithRetry failTwiceAttempt 3 = (some (Except.ok 7), 3) ∧
    fetchWithRetry alwaysFailAttempt 2 = (some (Except.error 1), 2) := by
  constructor
  · exact (@fetchWithRetry_retry_contract Nat Nat).1 failTwiceAttempt 0 1 7 3
      (by norm_num) rfl rfl rfl
  · have h := (@fetchWithRetry_retry_contract Nat Nat).2 alwaysFailAttempt
      (fun i => i) 2 (fun _ => rfl) (by norm_num)
    simpa using h

/-- C10: with a non-positive retry budget the loop body is never entered:
no attempt is performed and `undefined` (modelled as `none`) is returned,
with neither a result nor an error being produced. -/
theorem fetchWithRetry_nonpositive_budget {E V : Type}
    (attempt : Nat → FetchOutcome E V) (retries : Int) (h : retries ≤ 0) :
    fetchWithRetry attempt retries = (none, 0) := by
  rw [fetchWithRetry, fetchLoop, dif_neg (by omega)]

/-- Witness for C10: a zero budget with an always-failing request performs
no attempt and returns `undefined`. -/
theorem fetchWithRetry_nonpositive_budget_witness :
    fetchWithRetry alwaysFailAttempt 0 = (none, 0) :=
  fetchWithRetry_nonpositive_budget alwaysFailAttempt 0 (by norm_num)

/-! ## Theorems: booking-list operations (C6) -/

/-- Index-filtering a list extended on the right by one element, at the
index of that element, recovers the original list (stated for an arbitrary
enumeration offset `n` so the induction goes through). -/
theorem cancel_enumFrom_last (b : Booking) :
    ∀ (B : List Booking) (n : Nat),
      (((B ++ [b]).enumFrom n).filter (fun p => p.1 ≠ n + B.length)).map
        (fun p => p.2) = B := by
  intro B
  induction B with
  | nil => intro n; simp
  | cons x xs ih =>
    intro n
    simp only [List.cons_append, List.enumFrom_cons, List.length_cons,
      List.filter_cons]
    have h1 : (decide (n ≠ n + (xs.length + 1))) = true := by simp
    simp only [h1, if_true, List.map_cons]
    have h2 : n + (xs.length + 1) = (n + 1) + xs.length := by omega
    simp only [h2]
    rw [ih (n + 1)]

/-- C6: appending a booking via `handleBook` and then cancelling it via
`handleCancelBooking` at index `|B|` returns the booking list to exactly
`B` (same length and content, in order). -/
theorem book_then_cancel_roundtrip (B : List Booking) (b : Booking) :
    handleCancelBooking (handleBook B b) B.length = B := by
  have h := cancel_enumFrom_last b B 0
  simpa [handleCancelBooking, handleBook, List.enum] using h

/-! ## Theorems: JSON round trip and the booking store (C2, C7) -/

theorem hexVal_hexDigitChar : ∀ m, m < 16 → hexVal (hexDigitChar m) = some m := by
  decide

theorem hexVal_zeroChar : hexVal '0' = some 0 := by decide

theorem parseStrAux_quote (rest : List Char) :
    parseStrAux ('"' :: rest) = some ([], rest) := by
  rw [parseStrAux.eq_def]; simp

theorem parseStrAux_esc_quote (rest : List Char) :
    parseStrAux ('\\' :: '"' :: rest) =
      (parseStrAux rest).map (fun p => ('"' :: p.1, p.2)) := by
  rw [parseStrAux.eq_def]; simp

theorem parseStrAux_esc_back (rest : List Char) :
    parseStrAux ('\\' :: '\\' :: rest) =
      (parseStrAux rest).map (fun p => ('\\' :: p.1, p.2)) := by
  rw [parseStrAux.eq_def]; simp

theorem parseStrAux_esc_b (rest : List Char) :
    parseStrAux ('\\' :: 'b' :: rest) =
      (parseStrAux rest).map (fun p => (Char.ofNat 8 :: p.1, p.2)) := by
  rw [parseStrAux.eq_def]; simp

theorem parseStrAux_esc_t (rest : List Char) :
    parseStrAux ('\\' :: 't' :: rest) =
      (parseStrAux rest).map (fun p => (Char.ofNat 9 :: p.1, p.2)) := by
  rw [parseStrAux.eq_def]; simp

theorem parseStrAux_esc_n (rest : List Char) :
    parseStrAux ('\\' :: 'n' :: rest) =
      (parseStrAux rest).map (fun p => (Char.ofNat 10 :: p.1, p.2)) := by
  rw [parseStrAux.eq_def]; simp

theorem parseStrAux_esc_f (rest : List Char) :
    parseStrAux ('\\' :: 'f' :: rest) =
      (parseStrAux rest).map (fun p => (Char.ofNat 12 :: p.1, p.2)) := by
  rw [parseStrAux.eq_def]; simp

theorem parseStrAux_esc_r (rest : List Char) :
    parseStrAux ('\\' :: 'r' :: rest) =
      (parseStrAux rest).map (fun p => (Char.ofNat 13 :: p.1, p.2)) := by
  rw [parseStrAux.eq_def]; simp

theorem parseStrAux_esc_u00 (a b : Nat) (ha : a < 2) (hb : b < 16) (rest : List Char) :
    parseStrAux ('\\' :: 'u' :: '0' :: '0' :: hexDigitChar a :: hexDigitChar b :: rest) =
      (parseStrAux rest).map (fun p => (Char.ofNat (a * 16 + b) :: p.1, p.2)) := by
  rw [parseStrAux.eq_def]
  simp only [hexVal_hexDigitChar a (by omega), hexVal_hexDigitChar b hb, hexVal_zeroChar]
  simp
  intro h1 h2
  omega

theorem parseStrAux_plain (c : Char) (rest : List Char)
    (h1 : ¬ c = '"') (h2 : ¬ c = '\\') (h3 : ¬ c.toNat < 32) :
    parseStrAux (c :: rest) = (parseStrAux rest).map (fun p => (c :: p.1, p.2)) := by
  rw [parseStrAux.eq_def]
  simp [h1, h2, h3]

/-- Decoding inverts JS string escaping: parsing the escaped form of `cs`
followed by a closing quote yields `cs` and the unconsumed input. -/
theorem parseStrAux_escape (rest : List Char) :
    ∀ cs : List Char, parseStrAux (escapeChars cs ++ '"' :: rest) = some (cs, rest) := by
  intro cs
  induction cs with
  | nil => simpa [escapeChars] using parseStrAux_quote rest
  | cons c cs ih =>
    have hesc : escapeChars (c :: cs) ++ '"' :: rest =
        escChar c ++ (escapeChars cs ++ '"' :: rest) := by
      simp [escapeChars]
    rw [hesc]
    by_cases hq : c = '"'
    · subst hq
      have he : escChar '"' = ['\\', '"'] := by decide
      rw [he, List.cons_append, List.cons_append, List.nil_append,
        parseStrAux_esc_quote, ih, Option.map_some']
    · by_cases hb : c = '\\'
      · subst hb
        have he : escChar '\\' = ['\\', '\\'] := by decide
        rw [he, List.cons_append, List.cons_append, List.nil_append,
          parseStrAux_esc_back, ih, Option.map_some']
      · by_cases h8 : c = Char.ofNat 8
        · subst h8
          have he : escChar (Char.ofNat 8) = ['\\', 'b'] := by decide
          rw [he, List.cons_append, List.cons_append, List.nil_append,
            parseStrAux_esc_b, ih, Option.map_some']
        · by_cases h9 : c = Char.ofNat 9
          · subst h9
            have he : escChar (Char.ofNat 9) = ['\\', 't'] := by decide
            rw [he, List.cons_append, List.cons_append, List.nil_append,
              parseStrAux_esc_t, ih, Option.map_some']
          · by_cases h10 : c = Char.ofNat 10
            · subst h10
              have he : escChar (Char.ofNat 10) = ['\\', 'n'] := by decide
              rw [he, List.cons_append, List.cons_append, List.nil_append,
                parseStrAux_esc_n, ih, Option.map_some']
            · by_cases h12 : c = Char.ofNat 12
              · subst h12
                have he : escChar (Char.ofNat 12) = ['\\', 'f'] := by decide
                rw [he, List.cons_append, List.cons_append, List.nil_append,
                  parseStrAux_esc_f, ih, Option.map_some']
              · by_cases h13 : c = Char.ofNat 13
                · subst h13
                  have he : escChar (Char.ofNat 13) = ['\\', 'r'] := by decide
                  rw [he, List.cons_append, List.cons_append, List.nil_append,
                    parseStrAux_esc_r, ih, Option.map_some']
                · by_cases hctl : c.toNat < 32
                  · have he : escChar c =
                        ['\\', 'u', '0', '0', hexDigitChar (c.toNat / 16),
                         hexDigitChar (c.toNat % 16)] := by
                      simp only [escChar, if_neg hq, if_neg hb, if_neg h8, if_neg h9,
                        if_neg h10, if_neg h12, if_neg h13, if_pos hctl]
                    rw [he]
                    simp only [List.cons_append, List.nil_append]
                    rw [parseStrAux_esc_u00 (c.toNat / 16) (c.toNat % 16)
                      (by omega) (by omega), ih, Option.map_some']
                    have hn : c.toNat / 16 * 16 + c.toNat % 16 = c.toNat := by omega
                    rw [hn, Char.ofNat_toNat]
                  · have he : escChar c = [c] := by
                      simp only [escChar, if_neg hq, if_neg hb, if_neg h8, if_neg h9,
                        if_neg h10, if_neg h12, if_neg h13, if_neg hctl]
                    rw [he, List.cons_append, List.nil_append,
                      parseStrAux_plain c _ hq hb hctl, ih, Option.map_some']

theorem expectLit_append (p rest : List Char) : expectLit p (p ++ rest) = some rest := by
  induction p with
  | nil => simp [expectLit]
  | cons x xs ih => simp [expectLit, ih]

theorem expectChar_cons (c : Char) (xs : List Char) : expectChar c (c :: xs) = some xs := by
  simp [expectChar]

theorem parseField_fieldFrom (key v : String) (rest : List Char) :
    parseField key (fieldFrom key v rest) = some (v, rest) := by
  have h : fieldFrom key v rest =
      ('"' :: escapeChars key.data ++ ['"', ':', '"']) ++
        (escapeChars v.data ++ '"' :: rest) := by
    simp [fieldFrom]
  rw [h]
  simp only [parseField, Option.bind_eq_bind', expectLit_append, Option.some_bind',
    parseStrAux_escape]

theorem parseFields_fieldsFrom :
    ∀ (kvs : List (String × String)) (rest : List Char),
      parseFields (kvs.map Prod.fst) (fieldsFrom kvs rest) =
        some (kvs.map Prod.snd, rest) := by
  intro kvs
  induction kvs with
  | nil => intro rest; simp [parseFields, fieldsFrom]
  | cons kv kvs ih =>
    intro rest
    cases kvs with
    | nil =>
      simp [parseFields, fieldsFrom, parseField_fieldFrom]
    | cons kv2 kvs2 =>
      simp only [List.map_cons] at ih ⊢
      simp only [fieldsFrom, parseFields, Option.bind_eq_bind', parseField_fieldFrom,
        Option.some_bind', expectChar_cons, ih]

theorem parseBooking_bookingFrom (b : Booking) (rest : List Char) :
    parseBooking (bookingFrom b rest) = some (b, rest) := by
  have hkeys : bookingKeys = (bookingPairs b).map Prod.fst := by
    simp [bookingKeys, bookingPairs]
  have hvals : (bookingPairs b).map Prod.snd =
      [b.hospitalName, b.city, b.state, b.hospitalType, b.rating,
       b.bookingDate, b.bookingTime] := by
    simp [bookingPairs]
  simp only [parseBooking, bookingFrom, Option.bind_eq_bind', expectChar_cons,
    Option.some_bind', hkeys, parseFields_fieldsFrom, hvals]

theorem parseItems_itemsFrom :
    ∀ (bs : List Booking) (fuel : Nat), bs ≠ [] → bs.length ≤ fuel →
      parseItems fuel (itemsFrom bs) = some (bs, []) := by
  intro bs
  induction bs with
  | nil => intro fuel h _; exact absurd rfl h
  | cons b bs ih =>
    intro fuel _ hfuel
    cases fuel with
    | zero => simp at hfuel
    | succ f =>
      cases bs with
      | nil =>
        simp only [itemsFrom, parseItems, parseBooking_bookingFrom]
      | cons b2 bs2 =>
        have hlen : (b2 :: bs2).length ≤ f := by
          simp at hfuel ⊢; omega
        simp only [itemsFrom, parseItems, parseBooking_bookingFrom,
          ih f (by simp) hlen, Option.map_some']

theorem fieldFrom_len (key v : String) (rest : List Char) :
    rest.length + 2 ≤ (fieldFrom key v rest).length := by
  simp [fieldFrom]
  omega

theorem fieldsFrom_len :
    ∀ (kvs : List (String × String)) (rest : List Char),
      rest.length ≤ (fieldsFrom kvs rest).length := by
  intro kvs
  induction kvs with
  | nil => intro rest; simp [fieldsFrom]
  | cons kv kvs ih =>
    intro rest
    cases kvs with
    | nil =>
      have := fieldFrom_len kv.1 kv.2 rest
      simp only [fieldsFrom]
      omega
    | cons kv2 kvs2 =>
      have h1 := fieldFrom_len kv.1 kv.2 (',' :: fieldsFrom (kv2 :: kvs2) rest)
      have h2 := ih rest
      simp only [fieldsFrom]
      simp only [List.length_cons] at h1 ⊢
      omega

theorem bookingFrom_len (b : Booking) (rest : List Char) :
    rest.length + 2 ≤ (bookingFrom b rest).length := by
  have := fieldsFrom_len (bookingPairs b) (objClose :: rest)
  simp only [bookingFrom, List.length_cons] at this ⊢
  omega

theorem itemsFrom_len :
    ∀ bs : List Booking, bs ≠ [] → bs.length ≤ (itemsFrom bs).length := by
  intro bs
  induction bs with
  | nil => intro h; exact absurd rfl h
  | cons b bs ih =>
    intro _
    cases bs with
    | nil =>
      have := bookingFrom_len b [']']
      simp only [itemsFrom]
      simp at this ⊢
      omega
    | cons b2 bs2 =>
      have h1 := bookingFrom_len b (',' :: itemsFrom (b2 :: bs2))
      have h2 := ih (by simp)
      simp only [itemsFrom] at h1 ⊢
      simp only [List.length_cons] at h1 h2 ⊢
      omega

theorem itemsFrom_cons_head (b : Booking) (bs : List Booking) :
    ∃ t, itemsFrom (b :: bs) = objOpen :: t := by
  cases bs with
  | nil => exact ⟨_, rfl⟩
  | cons b2 bs2 => exact ⟨_, rfl⟩

/-- Parsing inverts serialization for every booking array. -/
theorem parseBookings_stringify (bs : List Booking) :
    parseBookings (stringifyBookings bs) = some bs := by
  cases bs with
  | nil =>
    simp [parseBookings, stringifyBookings, itemsFrom]
  | cons b bs =>
    obtain ⟨t, ht⟩ := itemsFrom_cons_head b bs
    have hne : itemsFrom (b :: bs) ≠ [']'] := by
      rw [ht]
      intro h
      have hh : objOpen = ']' := by
        have := congrArg (fun l => l.head?) h
        simpa using this
      exact absurd hh (by decide)
    have hlen : (b :: bs).length ≤ (itemsFrom (b :: bs)).length + 1 := by
      have := itemsFrom_len (b :: bs) (by simp)
      omega
    have hparse := parseItems_itemsFrom (b :: bs) ((itemsFrom (b :: bs)).length + 1)
      (by simp) hlen
    simp only [parseBookings, stringifyBookings]
    simp only [if_pos rfl, if_neg hne, hparse]
    rfl

theorem stringifyBookings_ne_empty (bs : List Booking) : stringifyBookings bs ≠ "" := by
  intro h
  have hd := congrArg String.data h
  simp [stringifyBookings] at hd

/-- C2: saving a booking array and then loading returns an equal array —
the store round-trip holds for every booking array and every prior store
content (in the model every booking array serializes). -/
theorem getBookings_saveBookings (B : List Booking) (st : Storage) :
    getBookings (saveBookings B st) = B := by
  have hst : saveBookings B st "bookings" = some (stringifyBookings B) := by
    simp [saveBookings]
  simp only [getBookings, hst]
  rw [if_neg (stringifyBookings_ne_empty B), parseBookings_stringify]

/-- C7: `getBookings` never propagates a failure: an absent slot, an empty
slot, or unparseable data all yield the empty array, and otherwise the
parsed stored array is returned.  (The function is total, so it never
throws.) -/
theorem getBookings_total_contract :
    (∀ st : Storage, st "bookings" = none → getBookings st = []) ∧
    (∀ st : Storage, st "bookings" = some "" → getBookings st = []) ∧
    (∀ (st : Storage) (s : String), st "bookings" = some s → parseBookings s = none →
      getBookings st = []) ∧
    (∀ (st : Storage) (s : String) (v : List Booking), st "bookings" = some s →
      parseBookings s = some v → getBookings st = v) := by
  refine ⟨?_, ?_, ?_, ?_⟩
  · intro st h; simp [getBookings, h]
  · intro st h; simp [getBookings, h]
  · intro st s h hp
    by_cases hs : s = ""
    · simp [getBookings, h, hs]
    · simp [getBookings, h, hs, hp]
  · intro st s v h hp
    have hs : s ≠ "" := by
      intro he
      subst he
      have hnone : parseBookings "" = none := rfl
      rw [hnone] at hp
      exact Option.noConfusion hp
    simp [getBookings, h, hs, hp]

/-- Witness for C7: the four branches of the contract evaluated at concrete
stores — absent slot, empty slot, malformed data, and a stored serialized
array. -/
theorem getBookings_total_contract_witness :
    getBookings (fun _ => none) = [] ∧
    getBookings (fun k => if k = "bookings" then some "" else none) = [] ∧
    getBookings (fun k => if k = "bookings" then some "oops" else none) = [] ∧
    getBookings (fun k => if k = "bookings" then some (stringifyBookings []) else none) = [] := by
  refine ⟨?_, ?_, ?_, ?_⟩
  · exact getBookings_total_contract.1 (fun _ => none) rfl
  · exact getBookings_total_contract.2.1 _ rfl
  · exact getBookings_total_contract.2.2.1 _ "oops" rfl rfl
  · exact getBookings_total_contract.2.2.2 _ (stringifyBookings []) [] rfl
      (parseBookings_stringify [])

/-! ## Theorems: search state controller (C3, C4, C5, C8, C9) -/

/-- C3: whenever the selected state changes — including to null or the
empty string — the synchronous part of the state-change effect clears the
cities list, the selected city and the search results; any cities fetch
resolution is a separate, strictly later event in the model, so the
clearing happens before any new fetch resolves. -/
theorem selectState_clears (s : AppState) (st : Option String) :
    (selectState s st).cities = [] ∧
    (selectState s st).selectedCity = none ∧
    (selectState s st).searchResults = [] := by
  cases st with
  | none => exact ⟨rfl, rfl, rfl⟩
  | some str =>
    by_cases h : str = "" <;> simp [selectState, h]

/-- C4 counterexample: in a concrete state showing one search result,
selecting a different city (state unchanged) leaves the search results
untouched and nonempty — changing the selected city does not clear them. -/
theorem selectCity_keeps_results_cex :
    (selectCity exState (some "OAKLAND")).selectedState = exState.selectedState ∧
    (selectCity exState (some "OAKLAND")).selectedCity ≠ exState.selectedCity ∧
    (selectCity exState (some "OAKLAND")).searchResults = [hospitalA] ∧
    ([hospitalA] : List Hospital) ≠ [] := by
  refine ⟨rfl, ?_, rfl, ?_⟩ <;> decide

/-- C4 (amended): changing the selected city by itself never changes the
search results; with the state unchanged, the results are cleared only when
a new search starts with both selections valid. -/
theorem selectCity_results_amended :
    (∀ (s : AppState) (c : Option String),
      (selectCity s c).searchResults = s.searchResults) ∧
    (∀ s : AppState, isFalsyStr s.selectedState = false →
      isFalsyStr s.selectedCity = false →
      (handleSearchStart s).searchResults = []) := by
  constructor
  · intro s c; rfl
  · intro s h1 h2
    simp [handleSearchStart, h1, h2]

/-- Witness for C4: the amended statement evaluated at the concrete state. -/
theorem selectCity_results_amended_witness :
    (selectCity exState (some "OAKLAND")).searchResults = exState.searchResults ∧
    (handleSearchStart exState).searchResults = [] := by
  constructor
  · exact selectCity_results_amended.1 exState (some "OAKLAND")
  · exact selectCity_results_amended.2 exState (by decide) (by decide)

/-- C5: when a hospitals request resolves successfully, the search results
become exactly the response mapped to the five-field projection (absent
fields replaced by the empty string) with every record whose projected name
is empty removed; every surviving result has a nonempty name, and a record
whose name field is missing or empty never appears in the results. -/
theorem hospitalsResolve_projection (s : AppState) (k : Nat)
    (data : List RawHospital) (hk : k < s.pendingHospitalReqs.length) :
    (hospitalsResolve s k (Except.ok data)).searchResults =
      (data.map projectHospital).filter (fun h => h.hospitalName ≠ "") ∧
    (∀ h ∈ (hospitalsResolve s k (Except.ok data)).searchResults,
      h.hospitalName ≠ "") ∧
    (∀ r ∈ data, r.hospitalName = none ∨ r.hospitalName = some "" →
      projectHospital r ∉ (hospitalsResolve s k (Except.ok data)).searchResults) := by
  have hres : (hospitalsResolve s k (Except.ok data)).searchResults =
      processHospitalData data := by
    simp [hospitalsResolve, hk]
  refine ⟨by rw [hres]; rfl, ?_, ?_⟩
  · intro h hmem
    rw [hres] at hmem
    simp only [processHospitalData, List.mem_filter, decide_eq_true_eq] at hmem
    exact hmem.2
  · intro r hr hname
    rw [hres]
    intro hmem
    simp only [processHospitalData, List.mem_filter, decide_eq_true_eq] at hmem
    have hempty : (projectHospital r).hospitalName = "" := by
      rcases hname with h | h <;> simp [projectHospital, orEmpty, h]
    exact hmem.2 hempty

/-- Witness for C5: resolving a concrete response containing one complete
record and one nameless record keeps exactly the complete record. -/
theorem hospitalsResolve_projection_witness :
    (hospitalsResolve exPending 0 (Except.ok [rawGood, rawNameless])).searchResults =
      [projectHospital rawGood] ∧
    projectHospital rawNameless ∉
      (hospitalsResolve exPending 0 (Except.ok [rawGood, rawNameless])).searchResults := by
  have h := hospitalsResolve_projection exPending 0 [rawGood, rawNameless] (by decide)
  constructor
  · rw [h.1]; decide
  · exact h.2.2 rawNameless (by decide) (by decide)

/-- C8: each of the three fetch stages raises its dedicated loading flag at
its start and lowers it when it settles, on the success path and on the
failure path alike. -/
theorem loading_flags_contract :
    (∀ s : AppState, (fetchStatesStart s).isLoading.states = true) ∧
    (∀ (s : AppState) (res : Except Unit (List StateRec)),
      (fetchStatesResolve s res).isLoading.states = false) ∧
    (∀ (s : AppState) (str : String), str ≠ "" →
      (selectState s (some str)).isLoading.cities = true) ∧
    (∀ (s : AppState) (k : Nat) (res : Except Unit (List String)),
      k < s.pendingCityReqs.length →
      (citiesResolve s k res).isLoading.cities = false) ∧
    (∀ s : AppState, isFalsyStr s.selectedState = false →
      isFalsyStr s.selectedCity = false →
      (handleSearchStart s).isLoading.hospitals = true) ∧
    (∀ (s : AppState) (k : Nat) (res : Except Unit (List RawHospital)),
      k < s.pendingHospitalReqs.length →
      (hospitalsResolve s k res).isLoading.hospitals = false) := by
  refine ⟨?_, ?_, ?_, ?_, ?_, ?_⟩
  · intro s; rfl
  · intro s res; cases res <;> rfl
  · intro s str h; simp [selectState, h]
  · intro s k res hk; cases res <;> simp [citiesResolve, hk]
  · intro s h1 h2; simp [handleSearchStart, h1, h2]
  · intro s k res hk; cases res <;> simp [hospitalsResolve, hk]

/-- Witness for C8: all six flag transitions evaluated on concrete states,
including a failure-path resolution for the states and hospitals stages. -/
theorem loading_flags_contract_witness :
    (fetchStatesStart initialState).isLoading.states = true ∧
    (fetchStatesResolve initialState (Except.error ())).isLoading.states = false ∧
    (selectState initialState (some "CA")).isLoading.cities = true ∧
    (citiesResolve (selectState initialState (some "CA")) 0
      (Except.ok ["LOS ANGELES"])).isLoading.cities = false ∧
    (handleSearchStart exState).isLoading.hospitals = true ∧
    (hospitalsResolve exPending 0 (Except.error ())).isLoading.hospitals = false :=
  ⟨loading_flags_contract.1 initialState,
   loading_flags_contract.2.1 initialState _,
   loading_flags_contract.2.2.1 initialState "CA" (by decide),
   loading_flags_contract.2.2.2.1 _ 0 _ (by decide),
   loading_flags_contract.2.2.2.2.1 exState (by decide) (by decide),
   loading_flags_contract.2.2.2.2.2 exPending 0 _ (by decide)⟩

/-- C9: an in-flight cities request is never cancelled by a selection
change — every pending request survives `selectState` — and a stale
response can still resolve after a newer selection has been made and
overwrite the cities: in the concrete trace, the request issued for state
"A" resolves after "B" has been selected and installs its cities anyway,
because no request-generation guard is checked before applying the
result. -/
theorem stale_response_never_cancelled :
    (∀ (s : AppState) (st : Option String) (r : String),
      r ∈ s.pendingCityReqs → r ∈ (selectState s st).pendingCityReqs) ∧
    ((selectState (selectState initialState (some "A")) (some "B")).pendingCityReqs
        = ["A", "B"] ∧
     (citiesResolve (selectState (selectState initialState (some "A")) (some "B")) 0
        (Except.ok ["a1"])).selectedState = some "B" ∧
     (citiesResolve (selectState (selectState initialState (some "A")) (some "B")) 0
        (Except.ok ["a1"])).cities = ["a1"] ∧
     (["a1"] : List String) ≠ []) := by
  constructor
  · intro s st r hr
    cases st with
    | none => exact hr
    | some str =>
      by_cases h : str = ""
      · simpa [selectState, h] using hr
      · simp [selectState, h]
        exact Or.inl hr
  · refine ⟨?_, ?_, ?_, ?_⟩ <;> decide

/-- Witness for C9: the stale request for state "A" is still pending after
state "B" has been selected. -/
theorem stale_response_never_cancelled_witness :
    "A" ∈ (selectState (selectState initialState (some "A")) (some "B")).pendingCityReqs :=
  stale_response_never_cancelled.1 (selectState initialState (some "A")) (some "B") "A"
    (by decide)

end Medify
